import Mathlib

/-!
Shallow embedding of the shopnest backend's statistics service
(src/server/src/statistics/statistics.service.ts) and category service,
together with proofs of the spec claims. The relational database is
modelled as lists of records; Prisma queries become list filters that
mirror each query object; timestamps are seconds since the Unix epoch
(Nat), and JavaScript Date's getDate/getMonth are realised by the civil
calendar conversion from days.
-/

/-- An order item row: price, quantity, owning store. -/
structure OrderItem where
  price : Int
  quantity : Int
  storeId : String
deriving Repr, DecidableEq

/-- An order row: creation timestamp (seconds since epoch), owning user,
contained items. -/
structure Order where
  id : String
  createdAt : Nat
  userId : String
  items : List OrderItem
deriving Repr, DecidableEq

/-- A user row. -/
structure User where
  id : String
  name : String
  email : String
  picture : String
  createdAt : Nat
deriving Repr, DecidableEq

/-- A product row (only the store scoping matters to the statistics). -/
structure Product where
  id : String
  storeId : String
deriving Repr, DecidableEq

/-- A review row: rating scoped to a store. -/
structure Review where
  id : String
  rating : Int
  storeId : String
deriving Repr, DecidableEq

/-- A category row. -/
structure Category where
  id : String
  name : String
  slug : String
  storeId : String
deriving Repr, DecidableEq

/-- Modelled from the spec: the category DTO carries the name/slug fields
(the dto/category.dto.ts file is not among the provided sources). -/
structure CategoryDto where
  name : String
  slug : String
deriving Repr, DecidableEq

/-- The relational store visible to the services. -/
structure Db where
  orders : List Order
  products : List Product
  categories : List Category
  reviews : List Review
  users : List User
deriving Repr

/-- The three-letter month abbreviations of statistics.service.ts. -/
def monthNames : List String :=
  ["jan", "feb", "mar", "apr", "may", "jun",
   "jul", "aug", "sep", "oct", "nov", "dec"]

/-- Civil-from-days conversion (proleptic Gregorian): given a count of
days since 1970-01-01, return (month index 0-11, day of month 1-31),
exactly what JavaScript Date.getMonth()/Date.getDate() yield in UTC. -/
def civilFromDays (days : Nat) : Nat × Nat :=
  let z := days + 719468
  let doe := z % 146097
  let yoe := (doe - doe / 1460 + doe / 36524 - doe / 146096) / 365
  let doy := doe - (365 * yoe + yoe / 4 - yoe / 100)
  let mp := (5 * doy + 2) / 153
  let d := doy - (153 * mp + 2) / 5 + 1
  let m := if mp < 10 then mp + 3 else mp - 9
  (m - 1, d)

/-- Seconds in one day. -/
def secPerDay : Nat := 86400

/-- dayjs startOf('day') on a timestamp in seconds. -/
def startOfDay (ts : Nat) : Nat := ts / secPerDay * secPerDay

/-- dayjs endOf('day') on a timestamp in seconds (23:59:59). -/
def endOfDay (ts : Nat) : Nat := startOfDay ts + (secPerDay - 1)

/-- The formatDate closure of calculateMonthlySales:
day-of-month, a space, then the three-letter month name. -/
def formatDate (ts : Nat) : String :=
  let md := civilFromDays (ts / secPerDay)
  toString md.2 ++ " " ++ monthNames.getD md.1 ""

namespace StatisticsService

/-- Does the order contain at least one item of the store?
(the Prisma condition items: some: storeId). -/
def hasStoreItem (storeId : String) (o : Order) : Bool :=
  o.items.any (fun i => i.storeId == storeId)

/-- calculateTotalRevenue: fetch orders having some item of the store,
with items filtered to the store, then sum price × quantity. -/
def calculateTotalRevenue (orders : List Order) (storeId : String) : Int :=
  let fetched :=
    (orders.filter (hasStoreItem storeId)).map
      (fun o => { o with items := o.items.filter (fun i => i.storeId == storeId) })
  fetched.foldl
    (fun acc o =>
      acc + o.items.foldl (fun itemAcc i => itemAcc + i.price * i.quantity) 0)
    0

/-- countProducts: count of products with the store's id. -/
def countProducts (db : Db) (storeId : String) : Nat :=
  (db.products.filter (fun p => p.storeId == storeId)).length

/-- countCategories: count of categories with the store's id. -/
def countCategories (db : Db) (storeId : String) : Nat :=
  (db.categories.filter (fun c => c.storeId == storeId)).length

/-- calculateAverageRating: Prisma aggregate _avg over the store's review
ratings; none when the store has no reviews (the null aggregate). -/
def calculateAverageRating (db : Db) (storeId : String) : Option ℚ :=
  let rs := db.reviews.filter (fun r => r.storeId == storeId)
  if rs.isEmpty then none
  else some ((rs.map (fun r => (r.rating : ℚ))).sum / (rs.length : ℚ))

/-- One entry of the main statistics payload. -/
structure Metric where
  id : Nat
  name : String
  value : ℚ
deriving Repr, DecidableEq

/-- getMainStatistics: the four metrics, with averageRating || 0
realised as the JavaScript falsy coalescing (null and 0 both become 0). -/
def getMainStatistics (db : Db) (storeId : String) : List Metric :=
  [ { id := 1, name := "Revenue",
      value := (calculateTotalRevenue db.orders storeId : ℚ) },
    { id := 2, name := "Products", value := (countProducts db storeId : ℚ) },
    { id := 3, name := "Categories", value := (countCategories db storeId : ℚ) },
    { id := 4, name := "Average rating",
      value := (calculateAverageRating db storeId).getD 0 } ]

/-- The per-order total of the monthly-sales reduction: price × quantity
summed over ALL of the order's included items (the include of
calculateMonthlySales carries no storeId filter). -/
def salesOrderTotal (o : Order) : Int :=
  o.items.foldl (fun t i => t + i.price * i.quantity) 0

/-- One step of the salesByDate grouping: add the order's total to the
entry of its formatted date, creating the entry at the end on first
sight (Map insertion order). -/
def salesStep (acc : List (String × Int)) (o : Order) : List (String × Int) :=
  let d := formatDate o.createdAt
  let total := salesOrderTotal o
  if acc.any (fun p => p.1 == d) then
    acc.map (fun p => if p.1 == d then (p.1, p.2 + total) else p)
  else
    acc ++ [(d, total)]

/-- calculateMonthlySales: orders created inside the trailing-30-day
window that have some item of the store, grouped by formatted date. -/
def calculateMonthlySales (now : Nat) (orders : List Order) (storeId : String) :
    List (String × Int) :=
  let startDate := startOfDay (now - 30 * secPerDay)
  let endDate := endOfDay now
  let salesRaw := orders.filter
    (fun o => decide (startDate ≤ o.createdAt) &&
              decide (o.createdAt ≤ endDate) &&
              hasStoreItem storeId o)
  salesRaw.foldl salesStep []

/-- Does the user qualify for getLastUsers: some order of the user
contains some item of the store. -/
def userQualifies (storeId : String) (orders : List Order) (u : User) : Bool :=
  orders.any (fun o => o.userId == u.id && hasStoreItem storeId o)

/-- The orderBy relation of getLastUsers: createdAt descending. -/
def byCreatedDesc (a b : User) : Prop := b.createdAt ≤ a.createdAt

instance : DecidableRel byCreatedDesc := fun a b => Nat.decLe b.createdAt a.createdAt

instance : IsTotal User byCreatedDesc :=
  ⟨fun a b => Nat.le_total b.createdAt a.createdAt⟩

instance : IsTrans User byCreatedDesc :=
  ⟨fun _ _ _ hab hbc => Nat.le_trans hbc hab⟩

/-- The user query of getLastUsers: qualifying users ordered by
createdAt descending, first five taken (the database's sort is modelled
by a stable sort under the descending relation). -/
def lastUsersQuery (storeId : String) (users : List User) (orders : List Order) :
    List User :=
  (List.insertionSort byCreatedDesc
    (users.filter (userQualifies storeId orders))).take 5

/-- The per-user included relation of getLastUsers: the user's orders
having some item of the store, each reduced (by the select) to the list
of prices of its items of the store. -/
def includedOrders (storeId : String) (orders : List Order) (u : User) :
    List (List Int) :=
  (orders.filter (fun o => o.userId == u.id && hasStoreItem storeId o)).map
    (fun o => (o.items.filter (fun i => i.storeId == storeId)).map
      (fun i => i.price))

/-- One entry of the lastUsers payload. -/
structure LastUser where
  id : String
  name : String
  email : String
  picture : String
  total : Int
deriving Repr, DecidableEq

/-- The body of the getLastUsers map for one user; none models the throw
on reading the last order of an empty orders array. -/
def lastUserEntry (storeId : String) (orders : List Order) (u : User) :
    Option LastUser :=
  match (includedOrders storeId orders u).getLast? with
  | none => none
  | some lastOrder =>
      some { id := u.id, name := u.name, email := u.email,
             picture := u.picture,
             total := lastOrder.foldl (fun t p => t + p) 0 }

/-- The non-throwing value of lastUserEntry: total of the last included
order (empty when there is none). -/
def mkLastUser (storeId : String) (orders : List Order) (u : User) : LastUser :=
  { id := u.id, name := u.name, email := u.email, picture := u.picture,
    total := ((includedOrders storeId orders u).getLast?.getD []).foldl
      (fun t p => t + p) 0 }

/-- getLastUsers: the queried users mapped to their entries; none models
an uncaught throw inside the map. -/
def getLastUsers (storeId : String) (users : List User) (orders : List Order) :
    Option (List LastUser) :=
  (lastUsersQuery storeId users orders).mapM (lastUserEntry storeId orders)

/-- getMiddleStatistics: monthly sales plus last users. -/
def getMiddleStatistics (now : Nat) (db : Db) (storeId : String) :
    List (String × Int) × Option (List LastUser) :=
  (calculateMonthlySales now db.orders storeId,
   getLastUsers storeId db.users db.orders)

end StatisticsService

namespace CategoryService

/-- getManyByStoreId: the categories of the store. -/
def getManyByStoreId (db : List Category) (storeId : String) : List Category :=
  db.filter (fun c => c.storeId == storeId)

/-- getById: findUnique by id, NotFoundException when absent. -/
def getById (db : List Category) (id : String) : Except String Category :=
  match db.find? (fun c => c.id == id) with
  | none => Except.error "Category not found"
  | some c => Except.ok c

/-- create: insert a new row carrying the dto fields and the store id;
the database supplies a fresh primary key, passed here as newId. -/
def create (db : List Category) (storeId : String) (dto : CategoryDto)
    (newId : String) : List Category × Category :=
  let c : Category := { id := newId, name := dto.name, slug := dto.slug,
                        storeId := storeId }
  (db ++ [c], c)

/-- The full-field overwrite Prisma applies for data: dto. -/
def applyDto (c : Category) (dto : CategoryDto) : Category :=
  { c with name := dto.name, slug := dto.slug }

/-- update: re-check existence via getById (propagating its NotFound
before any mutation), then overwrite the row's dto fields. The returned
pair is (database after the call, outcome). -/
def update (db : List Category) (id : String) (dto : CategoryDto) :
    List Category × Except String Category :=
  match getById db id with
  | Except.error e => (db, Except.error e)
  | Except.ok c =>
      (db.map (fun x => if x.id == id then applyDto x dto else x),
       Except.ok (applyDto c dto))

/-- delete: re-check existence via getById (propagating its NotFound
before any mutation), then remove the row. -/
def delete (db : List Category) (id : String) :
    List Category × Except String Category :=
  match getById db id with
  | Except.error e => (db, Except.error e)
  | Except.ok c => (db.filter (fun x => !(x.id == id)), Except.ok c)

end CategoryService

/-! ## Helper lemmas -/

/-- Folding addition of a measure over a list from any accumulator is the
accumulator plus the sum of the measures. -/
theorem foldl_add_int {α : Type} (f : α → Int) :
    ∀ (l : List α) (a : Int),
      List.foldl (fun acc i => acc + f i) a l = a + (l.map f).sum := by
  intro l
  induction l with
  | nil => intro a; simp
  | cons x xs ih =>
      intro a
      simp only [List.foldl_cons, List.map_cons, List.sum_cons, ih]
      ring

/-- The spec's formulation of total revenue: the sum of price × quantity
over exactly the order items whose storeId is the target store, across
all orders. -/
def specTotalRevenue (orders : List Order) (storeId : String) : Int :=
  (((orders.map Order.items).flatten.filter
      (fun i => i.storeId == storeId)).map
    (fun i => i.price * i.quantity)).sum

namespace StatisticsService

/-- calculateTotalRevenue in summation form. -/
theorem calculateTotalRevenue_sum_form (orders : List Order) (sid : String) :
    calculateTotalRevenue orders sid =
      ((orders.filter (hasStoreItem sid)).map
        (fun o => ((o.items.filter (fun i => i.storeId == sid)).map
          (fun i => i.price * i.quantity)).sum)).sum := by
  simp only [calculateTotalRevenue, foldl_add_int, zero_add, List.map_map]
  rfl

end StatisticsService

/-- C2: for every store, the total revenue computed by
calculateTotalRevenue equals the sum of price × quantity over exactly the
order items whose storeId is the target store; items of other stores in
mixed orders are excluded. -/
theorem C2_calculateTotalRevenue_eq_spec (orders : List Order) (sid : String) :
    StatisticsService.calculateTotalRevenue orders sid =
      specTotalRevenue orders sid := by
  rw [StatisticsService.calculateTotalRevenue_sum_form]
  unfold specTotalRevenue
  induction orders with
  | nil => simp
  | cons o os ih =>
      simp only [List.map_cons, List.flatten_cons, List.filter_append,
        List.map_append, List.sum_append, List.filter_cons]
      cases h : StatisticsService.hasStoreItem sid o with
      | true =>
          simp [ih]
      | false =>
          have hnone : o.items.filter (fun i => i.storeId == sid) = [] := by
            rw [List.filter_eq_nil_iff]
            simp only [StatisticsService.hasStoreItem] at h
            exact List.any_eq_false.mp h
          simp [h, hnone, ih]

/-- C1: counter to the claim, calculateMonthlySales does not exclude the
other store's items of a shared order: on the spec's own example (order A
with a 10×2 item of store S and a 5×1 item of store T, order B with a
3×1 item of S, both placed today = 1700000000s, i.e. 14 nov) today's
entry is 28, not the claimed 23. -/
theorem C1_monthlySales_includes_foreign_items :
    StatisticsService.calculateMonthlySales 1700000000
      [ { id := "A", createdAt := 1700000000, userId := "u1",
          items := [ { price := 10, quantity := 2, storeId := "S" },
                     { price := 5, quantity := 1, storeId := "T" } ] },
        { id := "B", createdAt := 1700000000, userId := "u1",
          items := [ { price := 3, quantity := 1, storeId := "S" } ] } ]
      "S" = [("14 nov", 28)] ∧ (28 : Int) ≠ 10 * 2 + 3 * 1 := by
  constructor
  · decide
  · decide

/-- C3: counter to the claim, getLastUsers ignores quantities: a last
order holding one item of the store priced 10 with quantity 2 is
annotated with total 10, not price × quantity = 20. -/
theorem C3_lastUsers_total_ignores_quantity :
    StatisticsService.getLastUsers "S"
      [ { id := "u1", name := "n", email := "e", picture := "p",
          createdAt := 100 } ]
      [ { id := "A", createdAt := 1700000000, userId := "u1",
          items := [ { price := 10, quantity := 2, storeId := "S" } ] } ]
      = some [ { id := "u1", name := "n", email := "e", picture := "p",
                 total := 10 } ]
    ∧ (10 : Int) ≠ 10 * 2 := by
  constructor
  · decide
  · decide

/-- C4: getById on an id absent from the category store fails with
NotFound, and update/delete on that id fail with the same error while
returning the store completely unchanged. -/
theorem C4_notFound_no_mutation (db : List Category) (id : String)
    (dto : CategoryDto) (h : ∀ c ∈ db, c.id ≠ id) :
    CategoryService.getById db id = Except.error "Category not found" ∧
    CategoryService.update db id dto = (db, Except.error "Category not found") ∧
    CategoryService.delete db id = (db, Except.error "Category not found") := by
  have hfind : db.find? (fun c => c.id == id) = none := by
    rw [List.find?_eq_none]
    intro c hc
    simpa using h c hc
  refine ⟨?_, ?_, ?_⟩
  · simp [CategoryService.getById, hfind]
  · simp [CategoryService.update, CategoryService.getById, hfind]
  · simp [CategoryService.delete, CategoryService.getById, hfind]

/-- Witness for C4 at a concrete store and absent id. -/
theorem C4_notFound_no_mutation_witness :
    CategoryService.getById [⟨"c1", "a", "b", "st"⟩] "zz" =
      Except.error "Category not found" :=
  (C4_notFound_no_mutation [⟨"c1", "a", "b", "st"⟩] "zz" ⟨"x", "y"⟩
    (by decide)).1

/-- C8: create followed by getById on the created record's id succeeds
and returns a category carrying the dto's field values and the assigned
store id. -/
theorem C8_create_getById_roundtrip (db : List Category) (sid : String)
    (dto : CategoryDto) (newId : String) (h : ∀ c ∈ db, c.id ≠ newId) :
    (CategoryService.create db sid dto newId).2.name = dto.name ∧
    (CategoryService.create db sid dto newId).2.slug = dto.slug ∧
    (CategoryService.create db sid dto newId).2.storeId = sid ∧
    CategoryService.getById (CategoryService.create db sid dto newId).1
        (CategoryService.create db sid dto newId).2.id =
      Except.ok (CategoryService.create db sid dto newId).2 := by
  refine ⟨rfl, rfl, rfl, ?_⟩
  have hfind : db.find? (fun c => c.id == newId) = none := by
    rw [List.find?_eq_none]
    intro c hc
    simpa using h c hc
  simp only [CategoryService.create, CategoryService.getById, List.find?_append,
    hfind]
  simp

/-- Witness for C8 at a concrete store, dto and fresh id. -/
theorem C8_create_getById_roundtrip_witness :
    CategoryService.getById
        (CategoryService.create [⟨"c1", "a", "b", "st"⟩] "st2" ⟨"n2", "s2"⟩
          "c9").1
        (CategoryService.create [⟨"c1", "a", "b", "st"⟩] "st2" ⟨"n2", "s2"⟩
          "c9").2.id =
      Except.ok
        (CategoryService.create [⟨"c1", "a", "b", "st"⟩] "st2" ⟨"n2", "s2"⟩
          "c9").2 :=
  (C8_create_getById_roundtrip [⟨"c1", "a", "b", "st"⟩] "st2" ⟨"n2", "s2"⟩ "c9"
    (by decide)).2.2.2

/-- C10: on an existing id, update overwrites only the dto-carried fields
(name, slug) of the matching record, keeps every record's id and storeId,
and leaves every record with a different id untouched. -/
theorem C10_update_frame (db : List Category) (id : String) (dto : CategoryDto)
    (c : Category) (h : CategoryService.getById db id = Except.ok c) :
    (CategoryService.update db id dto).1.length = db.length ∧
    (CategoryService.update db id dto).2 =
      Except.ok (CategoryService.applyDto c dto) ∧
    ∀ (i : Nat) (h1 : i < db.length)
        (h2 : i < (CategoryService.update db id dto).1.length),
      ((db.get ⟨i, h1⟩).id ≠ id →
        (CategoryService.update db id dto).1.get ⟨i, h2⟩ = db.get ⟨i, h1⟩) ∧
      ((db.get ⟨i, h1⟩).id = id →
        ((CategoryService.update db id dto).1.get ⟨i, h2⟩).id =
            (db.get ⟨i, h1⟩).id ∧
        ((CategoryService.update db id dto).1.get ⟨i, h2⟩).storeId =
            (db.get ⟨i, h1⟩).storeId ∧
        ((CategoryService.update db id dto).1.get ⟨i, h2⟩).name = dto.name ∧
        ((CategoryService.update db id dto).1.get ⟨i, h2⟩).slug = dto.slug) := by
  have hu : CategoryService.update db id dto =
      (db.map (fun x => if x.id == id then CategoryService.applyDto x dto else x),
       Except.ok (CategoryService.applyDto c dto)) := by
    simp only [CategoryService.update, h]
  rw [hu]
  refine ⟨by simp, rfl, ?_⟩
  intro i h1 h2
  simp only [List.get_eq_getElem, List.getElem_map]
  constructor
  · intro hne
    simp [hne]
  · intro heq
    simp [heq, CategoryService.applyDto]

/-- Witness for C10 at a concrete store and existing id. -/
theorem C10_update_frame_witness :
    (CategoryService.update [⟨"c1", "a", "b", "st"⟩] "c1" ⟨"n2", "s2"⟩).2 =
      Except.ok (CategoryService.applyDto ⟨"c1", "a", "b", "st"⟩ ⟨"n2", "s2"⟩) :=
  (C10_update_frame [⟨"c1", "a", "b", "st"⟩] "c1" ⟨"n2", "s2"⟩
    ⟨"c1", "a", "b", "st"⟩ rfl).2.1

/-- mapM over Option is the plain map when every element succeeds. -/
theorem mapM_option_eq_map {α β : Type} (f : α → Option β) (g : α → β) :
    ∀ (l : List α), (∀ a ∈ l, f a = some (g a)) →
      l.mapM f = some (l.map g) := by
  intro l
  induction l with
  | nil => intro _; rfl
  | cons a t ih =>
      intro h
      rw [List.mapM_cons, h a (List.mem_cons_self a t),
        ih (fun x hx => h x (List.mem_cons_of_mem a hx))]
      rfl

namespace StatisticsService

/-- A qualifying user has at least one included order. -/
theorem includedOrders_ne_nil (sid : String) (orders : List Order) (u : User)
    (h : userQualifies sid orders u = true) :
    includedOrders sid orders u ≠ [] := by
  simp only [userQualifies, List.any_eq_true] at h
  obtain ⟨o, ho, hcond⟩ := h
  simp only [includedOrders, ne_eq, List.map_eq_nil_iff, List.filter_eq_nil_iff]
  intro hnil
  exact hnil o ho hcond

/-- For a qualifying user the entry is computed, not thrown. -/
theorem lastUserEntry_eq_mk (sid : String) (orders : List Order) (u : User)
    (h : userQualifies sid orders u = true) :
    lastUserEntry sid orders u = some (mkLastUser sid orders u) := by
  unfold lastUserEntry mkLastUser
  cases hl : (includedOrders sid orders u).getLast? with
  | none =>
      exact absurd (List.getLast?_eq_none_iff.mp hl)
        (includedOrders_ne_nil sid orders u h)
  | some lastOrder => simp [hl]

/-- Every user of the lastUsers query is a qualifying user of the user
table. -/
theorem mem_lastUsersQuery (sid : String) (users : List User)
    (orders : List Order) (u : User)
    (hu : u ∈ lastUsersQuery sid users orders) :
    u ∈ users ∧ userQualifies sid orders u = true := by
  unfold lastUsersQuery at hu
  have h1 : u ∈ List.insertionSort byCreatedDesc
      (users.filter (userQualifies sid orders)) :=
    List.take_subset _ _ hu
  have h2 : u ∈ users.filter (userQualifies sid orders) :=
    ((List.perm_insertionSort byCreatedDesc _).mem_iff).mp h1
  exact List.mem_filter.mp h2

/-- getLastUsers in closed form: the query mapped through mkLastUser. -/
theorem getLastUsers_eq_map (sid : String) (users : List User)
    (orders : List Order) :
    getLastUsers sid users orders =
      some ((lastUsersQuery sid users orders).map (mkLastUser sid orders)) := by
  unfold getLastUsers
  exact mapM_option_eq_map _ _ _
    (fun u hu => lastUserEntry_eq_mk sid orders u
      (mem_lastUsersQuery sid users orders u hu).2)

/-- Every key produced by one grouping step is an existing key or the
order's formatted date. -/
theorem salesStep_keys (o : Order) (acc : List (String × Int))
    (p : String × Int) (hp : p ∈ salesStep acc o) :
    p.1 ∈ acc.map Prod.fst ∨ p.1 = formatDate o.createdAt := by
  simp only [salesStep] at hp
  split at hp
  · obtain ⟨q, hq, hqe⟩ := List.mem_map.mp hp
    left
    have : p.1 = q.1 := by
      by_cases hc : (q.1 == formatDate o.createdAt) = true
      · rw [if_pos hc] at hqe; rw [← hqe]
      · rw [if_neg hc] at hqe; rw [← hqe]
    rw [this]
    exact List.mem_map_of_mem Prod.fst hq
  · rcases List.mem_append.mp hp with h | h
    · exact Or.inl (List.mem_map_of_mem Prod.fst h)
    · right
      have : p = (formatDate o.createdAt, salesOrderTotal o) := by
        simpa using h
      rw [this]

/-- Every key of the grouping fold is an existing key or comes from one
of the folded orders. -/
theorem foldl_salesStep_keys (l : List Order) :
    ∀ (acc : List (String × Int)) (p : String × Int),
      p ∈ l.foldl salesStep acc →
      p.1 ∈ acc.map Prod.fst ∨ ∃ o ∈ l, formatDate o.createdAt = p.1 := by
  induction l with
  | nil =>
      intro acc p hp
      exact Or.inl (List.mem_map_of_mem Prod.fst hp)
  | cons o os ih =>
      intro acc p hp
      rcases ih (salesStep acc o) p hp with h | h
      · obtain ⟨q, hq, hqe⟩ := List.mem_map.mp h
        rcases salesStep_keys o acc q hq with h2 | h2
        · exact Or.inl (hqe ▸ h2)
        · exact Or.inr ⟨o, List.mem_cons_self o os, by rw [← hqe, ← h2]⟩
      · obtain ⟨o2, ho2, he⟩ := h
        exact Or.inr ⟨o2, List.mem_cons_of_mem o ho2, he⟩

end StatisticsService

/-- C7: every entry of the daily sales series is labeled by the calendar
day of some order of the store placed inside the inclusive trailing
30-day window; an entry exists only when such a qualifying order exists
on that day. -/
theorem C7_monthlySales_window (now : Nat) (orders : List Order) (sid : String)
    (p : String × Int)
    (hp : p ∈ StatisticsService.calculateMonthlySales now orders sid) :
    ∃ o ∈ orders,
      (startOfDay (now - 30 * secPerDay) ≤ o.createdAt ∧
        o.createdAt ≤ endOfDay now) ∧
      StatisticsService.hasStoreItem sid o = true ∧
      formatDate o.createdAt = p.1 := by
  simp only [StatisticsService.calculateMonthlySales] at hp
  rcases StatisticsService.foldl_salesStep_keys _ _ _ hp with h | h
  · simp at h
  · obtain ⟨o, ho, he⟩ := h
    have hmem := List.mem_filter.mp ho
    have hcond := hmem.2
    simp only [Bool.and_eq_true, decide_eq_true_eq] at hcond
    exact ⟨o, hmem.1, ⟨hcond.1.1, hcond.1.2⟩, hcond.2, he⟩

/-- Witness for C7 at the concrete two-order example. -/
theorem C7_monthlySales_window_witness :
    ∃ o ∈
      [ ({ id := "A", createdAt := 1700000000, userId := "u1",
           items := [ { price := 10, quantity := 2, storeId := "S" },
                      { price := 5, quantity := 1, storeId := "T" } ] } : Order),
        { id := "B", createdAt := 1700000000, userId := "u1",
          items := [ { price := 3, quantity := 1, storeId := "S" } ] } ],
      (startOfDay (1700000000 - 30 * secPerDay) ≤ o.createdAt ∧
        o.createdAt ≤ endOfDay 1700000000) ∧
      StatisticsService.hasStoreItem "S" o = true ∧
      formatDate o.createdAt = ("14 nov", (28 : Int)).1 :=
  C7_monthlySales_window 1700000000
    [ { id := "A", createdAt := 1700000000, userId := "u1",
        items := [ { price := 10, quantity := 2, storeId := "S" },
                   { price := 5, quantity := 1, storeId := "T" } ] },
      { id := "B", createdAt := 1700000000, userId := "u1",
        items := [ { price := 3, quantity := 1, storeId := "S" } ] } ]
    "S" ("14 nov", 28) (by decide)

/-- C9: whenever the store's own order list is empty — no order of the
table contains an item of the store — the daily sales series is empty;
and getLastUsers never reaches the throwing read: under the query filter
every returned user has a last qualifying order, so the map always
produces a value. -/
theorem C9_empty_and_no_throw (now : Nat) (sid : String) (users : List User)
    (orders : List Order) :
    ((∀ o ∈ orders, StatisticsService.hasStoreItem sid o = false) →
      StatisticsService.calculateMonthlySales now orders sid = []) ∧
    (StatisticsService.getLastUsers sid users orders).isSome = true := by
  constructor
  · intro h
    have hfil : ∀ (a b : Nat), orders.filter
        (fun o => decide (a ≤ o.createdAt) && decide (o.createdAt ≤ b) &&
          StatisticsService.hasStoreItem sid o) = [] := by
      intro a b
      rw [List.filter_eq_nil_iff]
      intro o ho
      simp [h o ho]
    simp only [StatisticsService.calculateMonthlySales, hfil]
    rfl
  · rw [StatisticsService.getLastUsers_eq_map]
    rfl

/-- Witness for C9 at a table holding only another store's order. -/
theorem C9_empty_and_no_throw_witness :
    StatisticsService.calculateMonthlySales 1700000000
      [ { id := "A", createdAt := 1700000000, userId := "u1",
          items := [ { price := 5, quantity := 1, storeId := "T" } ] } ]
      "S" = [] :=
  (C9_empty_and_no_throw 1700000000 "S" []
    [ { id := "A", createdAt := 1700000000, userId := "u1",
        items := [ { price := 5, quantity := 1, storeId := "T" } ] } ]).1
    (by decide)

/-- C5: getLastUsers returns at most five entries, one per queried user;
every queried user is a user of the table who has placed at least one
order containing an item of the store; the queried users are ordered by
registration time descending, and no qualifying user outside the result
registered later than any returned one. -/
theorem C5_lastUsers_top5 (sid : String) (users : List User)
    (orders : List Order) (us : List User)
    (h : StatisticsService.lastUsersQuery sid users orders = us) :
    StatisticsService.getLastUsers sid users orders =
      some (us.map (StatisticsService.mkLastUser sid orders)) ∧
    us.length ≤ 5 ∧
    (∀ u ∈ us, u ∈ users ∧
      StatisticsService.userQualifies sid orders u = true) ∧
    List.Pairwise StatisticsService.byCreatedDesc us ∧
    (∀ u ∈ us, ∀ v ∈ users,
      StatisticsService.userQualifies sid orders v = true → v ∉ us →
      v.createdAt ≤ u.createdAt) := by
  subst h
  refine ⟨StatisticsService.getLastUsers_eq_map sid users orders, ?_, ?_, ?_, ?_⟩
  · exact List.length_take_le 5 _
  · exact fun u hu => StatisticsService.mem_lastUsersQuery sid users orders u hu
  · unfold StatisticsService.lastUsersQuery
    exact List.Pairwise.sublist (List.take_sublist 5 _)
      (List.sorted_insertionSort StatisticsService.byCreatedDesc _)
  · intro u hu v hv hq hnv
    have hsorted : List.Pairwise StatisticsService.byCreatedDesc
        (List.insertionSort StatisticsService.byCreatedDesc
          (users.filter (StatisticsService.userQualifies sid orders))) :=
      List.sorted_insertionSort StatisticsService.byCreatedDesc _
    have hvs : v ∈ List.insertionSort StatisticsService.byCreatedDesc
        (users.filter (StatisticsService.userQualifies sid orders)) :=
      ((List.perm_insertionSort StatisticsService.byCreatedDesc _).mem_iff).mpr
        (List.mem_filter.mpr ⟨hv, hq⟩)
    rw [← List.take_append_drop 5 (List.insertionSort StatisticsService.byCreatedDesc
      (users.filter (StatisticsService.userQualifies sid orders)))] at hsorted hvs
    rcases List.mem_append.mp hvs with hvtake | hvdrop
    · exact absurd hvtake hnv
    · exact (List.pairwise_append.mp hsorted).2.2 u hu v hvdrop

/-- Witness for C5 at a concrete one-user table. -/
theorem C5_lastUsers_top5_witness :
    StatisticsService.getLastUsers "S"
        [ { id := "u1", name := "n", email := "e", picture := "p",
            createdAt := 100 } ]
        [ { id := "A", createdAt := 1700000000, userId := "u1",
            items := [ { price := 7, quantity := 1, storeId := "S" } ] } ] =
      some ([ ({ id := "u1", name := "n", email := "e", picture := "p",
                 createdAt := 100 } : User) ].map
        (StatisticsService.mkLastUser "S"
          [ { id := "A", createdAt := 1700000000, userId := "u1",
              items := [ { price := 7, quantity := 1, storeId := "S" } ] } ])) :=
  (C5_lastUsers_top5 "S"
    [ { id := "u1", name := "n", email := "e", picture := "p",
        createdAt := 100 } ]
    [ { id := "A", createdAt := 1700000000, userId := "u1",
        items := [ { price := 7, quantity := 1, storeId := "S" } ] } ]
    [ { id := "u1", name := "n", email := "e", picture := "p",
        createdAt := 100 } ] (by decide)).1

/-- C6: getMainStatistics always returns exactly the four metrics
Revenue, Products, Categories, Average rating in that order; when the
store has no reviews the average-rating value is 0 (null aggregate
coalesced); and for a store id matching no data the call still returns,
with all four values 0. -/
theorem C6_getMainStatistics_shape (db : Db) (sid : String) :
    ((StatisticsService.getMainStatistics db sid).map
        (fun m => (m.id, m.name)) =
      [(1, "Revenue"), (2, "Products"), (3, "Categories"),
       (4, "Average rating")]) ∧
    (db.reviews.filter (fun r => r.storeId == sid) = [] →
      ((StatisticsService.getMainStatistics db sid).getD 3
          { id := 0, name := "", value := 0 }).value = 0) ∧
    ((∀ o ∈ db.orders, ∀ i ∈ o.items, i.storeId ≠ sid) →
      (∀ p ∈ db.products, p.storeId ≠ sid) →
      (∀ c ∈ db.categories, c.storeId ≠ sid) →
      (∀ r ∈ db.reviews, r.storeId ≠ sid) →
      (StatisticsService.getMainStatistics db sid).map (fun m => m.value) =
        [0, 0, 0, 0]) := by
  refine ⟨by simp [StatisticsService.getMainStatistics], ?_, ?_⟩
  · intro h
    simp [StatisticsService.getMainStatistics,
      StatisticsService.calculateAverageRating, h]
  · intro h1 h2 h3 h4
    have hrev : StatisticsService.calculateTotalRevenue db.orders sid = 0 := by
      rw [StatisticsService.calculateTotalRevenue_sum_form]
      have hfil : db.orders.filter (StatisticsService.hasStoreItem sid) = [] := by
        rw [List.filter_eq_nil_iff]
        intro o ho
        simp only [StatisticsService.hasStoreItem, List.any_eq_true, not_exists]
        intro i
        rw [not_and]
        intro hi hbeq
        exact h1 o ho i hi (by simpa using hbeq)
      rw [hfil]
      simp
    have hprod : db.products.filter (fun p => p.storeId == sid) = [] := by
      rw [List.filter_eq_nil_iff]
      intro p hp
      simpa using h2 p hp
    have hcat : db.categories.filter (fun c => c.storeId == sid) = [] := by
      rw [List.filter_eq_nil_iff]
      intro c hc
      simpa using h3 c hc
    have hrev2 : db.reviews.filter (fun r => r.storeId == sid) = [] := by
      rw [List.filter_eq_nil_iff]
      intro r hr
      simpa using h4 r hr
    simp [StatisticsService.getMainStatistics, StatisticsService.countProducts,
      StatisticsService.countCategories, StatisticsService.calculateAverageRating,
      hrev, hprod, hcat, hrev2]

/-- Witness for C6 at the empty database. -/
theorem C6_getMainStatistics_shape_witness :
    (StatisticsService.getMainStatistics
        { orders := [], products := [], categories := [], reviews := [],
          users := [] } "S").map (fun m => m.value) = [0, 0, 0, 0] :=
  (C6_getMainStatistics_shape
    { orders := [], products := [], categories := [], reviews := [], users := [] }
    "S").2.2 (by simp) (by simp) (by simp) (by simp)
